import Mathlib

/-!
Shallow embedding of the `tmxparse` TMX deserialization library
(`tmx.py`, `base.py`) and proofs about its documented behaviour.

Python values that the embedded code manipulates are modelled by `PyVal`;
raised exceptions are modelled by the `Except PyErr` monad.  Python `dict`s
(attribute maps, property bags, object attribute dictionaries) are modelled
as insertion-ordered association lists with the update-in-place semantics of
`dict.__setitem__`.
-/

/-- Python exception kinds raised by the embedded code paths. -/
inductive PyErr where
  | typeError
  | indexError
  | keyError (key : String)
  | valueError (msg : String)
  | attributeError
deriving DecidableEq

/-- Python values stored in attribute maps and property bags. -/
inductive PyVal where
  | pyNone
  | bool (b : Bool)
  | int (n : Int)
  | str (s : String)
deriving DecidableEq

/-- Python `dict` lookup on an insertion-ordered association list
(keys kept unique by `dictSet`). -/
def dictGet {α : Type} (d : List (String × α)) (k : String) : Option α :=
  (d.find? (fun p => p.1 == k)).map (·.2)

/-- Python `dict.__setitem__`: update an existing key in place, else append. -/
def dictSet {α : Type} (d : List (String × α)) (k : String) (v : α) :
    List (String × α) :=
  match d with
  | [] => [(k, v)]
  | (k1, v1) :: rest => if k1 == k then (k, v) :: rest else (k1, v1) :: dictSet rest k v

/-- Python `del d[k]`: drop every binding of the key (with unique keys,
exactly the one binding). -/
def dictDel {α : Type} (d : List (String × α)) (k : String) : List (String × α) :=
  d.filter (fun p => p.1 != k)

/-- The overlay loop `for k, v in upd: base[k] = v` used by remote-reference
resolution in `Data._load`. -/
def dictOverlay {α : Type} (base upd : List (String × α)) : List (String × α) :=
  upd.foldl (fun acc p => dictSet acc p.1 p.2) base

theorem dictGet_cons_ne {α : Type} (k1 : String) (v1 : α) (tl : List (String × α))
    (k : String) (h : k1 ≠ k) : dictGet ((k1, v1) :: tl) k = dictGet tl k := by
  rw [dictGet, List.find?_cons_of_neg _ (by simpa using h)]
  rfl

theorem dictGet_cons_self {α : Type} (k : String) (v : α) (tl : List (String × α)) :
    dictGet ((k, v) :: tl) k = some v := by
  rw [dictGet, List.find?_cons_of_pos _ (by simp)]
  rfl

theorem dictGet_dictSet_self {α : Type} (d : List (String × α)) (k : String) (v : α) :
    dictGet (dictSet d k v) k = some v := by
  induction d with
  | nil => exact dictGet_cons_self k v []
  | cons hd tl ih =>
    obtain ⟨k1, v1⟩ := hd
    rcases eq_or_ne k1 k with h | h
    · subst h
      rw [dictSet, if_pos (by simp)]
      exact dictGet_cons_self k1 v tl
    · rw [dictSet, if_neg (by simpa using h)]
      rw [dictGet_cons_ne k1 v1 _ k h]
      exact ih

theorem dictGet_dictSet_ne {α : Type} (d : List (String × α)) (k k2 : String) (v : α)
    (h : k2 ≠ k) : dictGet (dictSet d k v) k2 = dictGet d k2 := by
  induction d with
  | nil =>
    show dictGet [(k, v)] k2 = dictGet [] k2
    rw [dictGet_cons_ne k v [] k2 (Ne.symm h)]
  | cons hd tl ih =>
    obtain ⟨k1, v1⟩ := hd
    rcases eq_or_ne k1 k with h1 | h1
    · subst h1
      rw [dictSet, if_pos (by simp)]
      rw [dictGet_cons_ne k1 v tl k2 (Ne.symm h), dictGet_cons_ne k1 v1 tl k2 (Ne.symm h)]
    · rw [dictSet, if_neg (by simpa using h1)]
      rcases eq_or_ne k1 k2 with h2 | h2
      · subst h2
        rw [dictGet_cons_self k1 v1 (dictSet tl k v), dictGet_cons_self k1 v1 tl]
      · rw [dictGet_cons_ne k1 v1 _ k2 h2, dictGet_cons_ne k1 v1 tl k2 h2]
        exact ih

theorem dictGet_dictDel_self {α : Type} (d : List (String × α)) (k : String) :
    dictGet (dictDel d k) k = none := by
  induction d with
  | nil => rfl
  | cons hd tl ih =>
    obtain ⟨k1, v1⟩ := hd
    rcases eq_or_ne k1 k with h | h
    · subst h
      rw [dictDel, List.filter_cons, if_neg (by simp)]
      exact ih
    · rw [dictDel, List.filter_cons, if_pos (by simpa using h)]
      rw [dictGet_cons_ne k1 v1 _ k h]
      exact ih

theorem dictGet_dictDel_ne {α : Type} (d : List (String × α)) (k k2 : String)
    (h : k2 ≠ k) : dictGet (dictDel d k) k2 = dictGet d k2 := by
  induction d with
  | nil => rfl
  | cons hd tl ih =>
    obtain ⟨k1, v1⟩ := hd
    rcases eq_or_ne k1 k with h1 | h1
    · subst h1
      rw [dictDel, List.filter_cons, if_neg (by simp)]
      rw [dictGet_cons_ne k1 v1 tl k2 (Ne.symm h)]
      exact ih
    · rw [dictDel, List.filter_cons, if_pos (by simpa using h1)]
      rcases eq_or_ne k1 k2 with h2 | h2
      · subst h2
        rw [dictGet_cons_self k1 v1 _, dictGet_cons_self k1 v1 tl]
      · rw [dictGet_cons_ne k1 v1 _ k2 h2, dictGet_cons_ne k1 v1 tl k2 h2]
        exact ih

theorem dictGet_dictOverlay_of_not_mem {α : Type} (base upd : List (String × α))
    (k : String) (h : ∀ v, (k, v) ∉ upd) :
    dictGet (dictOverlay base upd) k = dictGet base k := by
  induction upd generalizing base with
  | nil => simp [dictOverlay]
  | cons hd tl ih =>
    obtain ⟨k1, v1⟩ := hd
    have hk1 : k ≠ k1 := by
      intro hkk
      exact h v1 (by simp [hkk])
    have htl : ∀ v, (k, v) ∉ tl := by
      intro v hv
      exact h v (by simp [hv])
    calc dictGet (dictOverlay (dictSet base k1 v1) tl) k
        = dictGet (dictSet base k1 v1) k := ih (dictSet base k1 v1) htl
      _ = dictGet base k := dictGet_dictSet_ne base k1 k v1 hk1

theorem dictGet_dictOverlay_of_mem {α : Type} (base upd : List (String × α))
    (k : String) (v : α) (hnd : (upd.map Prod.fst).Nodup) (h : (k, v) ∈ upd) :
    dictGet (dictOverlay base upd) k = some v := by
  induction upd generalizing base with
  | nil => simp at h
  | cons hd tl ih =>
    obtain ⟨k1, v1⟩ := hd
    have hnd2 : (tl.map Prod.fst).Nodup := by
      simp only [List.map_cons, List.nodup_cons] at hnd
      exact hnd.2
    rcases List.mem_cons.mp h with heq | htl
    · cases heq
      have hnotin : ∀ w, (k, w) ∉ tl := by
        intro w hw
        have hmem : k ∈ tl.map Prod.fst := List.mem_map.mpr ⟨(k, w), hw, rfl⟩
        simp only [List.map_cons, List.nodup_cons] at hnd
        exact hnd.1 hmem
      calc dictGet (dictOverlay (dictSet base k v) tl) k
          = dictGet (dictSet base k v) k :=
            dictGet_dictOverlay_of_not_mem (dictSet base k v) tl k hnotin
        _ = some v := dictGet_dictSet_self base k v
    · exact ih (dictSet base k1 v1) hnd2 htl

/-- Python `int(s)` on the digit suffix: defined when the character list is a
non-empty run of decimal digits. -/
def parseIntCore (l : List Char) (sign : Int) : Option Int :=
  if l ≠ [] ∧ l.all Char.isDigit then
    some (sign * (l.foldl (fun a c => a * 10 + ((c.toNat : Int) - 48)) 0))
  else none

/-- Python `int(s)`: optional sign followed by decimal digits, `ValueError`
otherwise (whitespace stripping is not exercised by the claims). -/
def parseInt (s : String) : Option Int :=
  match s.data with
  | '-' :: rest => parseIntCore rest (-1)
  | '+' :: rest => parseIntCore rest 1
  | l => parseIntCore l 1

/-- Python list indexing `l[i]`: negative indices address from the end;
anything else out of range raises `IndexError`. -/
def pyListGet {α : Type} (l : List α) (i : Int) : Except PyErr α :=
  let j : Int := if i < 0 then (l.length : Int) + i else i
  if h : 0 ≤ j ∧ j < (l.length : Int) then
    .ok (l.get ⟨j.toNat, by omega⟩)
  else .error .indexError

/-! ### `coerce` (tmx.py lines 112-122, base.py lines 113-133) — claim C9

`coerce` turns an XML attribute string into a Python object of the type named
by the field's annotation.  The guard in the source is
`isinstance(to_type, bool)` where `to_type` is a *class* (such as the class
`bool` itself); in Python a class object is never an *instance* of `bool`, so
the guard is always false and the value falls through to `to_type(value)`.
-/

/-- The annotation types occurring on the attribute fields the claims touch. -/
inductive PyType where
  | bool
  | int
  | str
deriving DecidableEq

/-- `base_annotation_type` (tmx.py lines 124-139): a plain (non-union,
non-list) annotation is returned unchanged. -/
def base_annotation_type (t : PyType) : PyType := t

/-- The Python expression `isinstance(to_type, bool)` with `to_type` a class
object: a class is an instance of `type`, never of `bool`, so this is `false`
for every annotation — including the annotation `bool` itself. -/
def isinstance_bool (_t : PyType) : Bool := false

/-- Calling the class `to_type(value)` on an attribute string:
`bool(s)` is truthiness of the string (non-empty), `int(s)` parses base-10,
`str(s)` is the string itself. -/
def pyCallType : PyType → String → Except PyErr PyVal
  | .bool, s => .ok (.bool (s != ""))
  | .int, s =>
    match parseInt s with
    | some n => .ok (.int n)
    | none => .error (.valueError "invalid literal for int")
  | .str, s => .ok (.str s)

/-- `coerce` (tmx.py lines 112-122). -/
def coerce (to_type : PyType) (value : String) : Except PyErr PyVal :=
  let t := base_annotation_type to_type
  if isinstance_bool t then
    match parseInt value with
    | some n => .ok (.bool (n != 0))
    | none => .error (.valueError "invalid literal for int")
  else
    pyCallType t value

/-- C9: for a `bool`-annotated XML attribute field and any non-empty
attribute string `s`, `coerce(bool, s)` returns `True` — including for
`s = "false"` — because `isinstance(to_type, bool)` is false when `to_type`
is the class `bool`, so the value falls through to `bool(s)`. -/
theorem coerce_bool_nonempty_true (s : String) (h : s ≠ "") :
    coerce PyType.bool s = .ok (.bool true) := by
  have hb : (s != "") = true := by
    simpa using h
  simp [coerce, base_annotation_type, isinstance_bool, pyCallType, hb]

/-- Witness for C9 at the concrete attribute text `"false"`. -/
theorem coerce_bool_nonempty_true_witness :
    coerce PyType.bool "false" = .ok (.bool true) :=
  coerce_bool_nonempty_true "false" (by decide)

/-! ### `Property.load_xml` (tmx.py lines 690-710) — claim C4

A `<property name=... type=... value=...>` element is decoded by matching on
`(self.type or "string")`.  The source decodes `bool` as
`element.attrib["value"] == "true"`, decodes `int` by `int(...)`, keeps the
raw text for `string`, and raises `ValueError("unknown property type ...")`
for every other type tag — there is no `number`/`float` case at all.
-/

/-- Python `x or default` on an optional string: `None` and the empty string
are falsy and yield the default. -/
def pyOr (x : Option String) (default : String) : String :=
  match x with
  | none => default
  | some s => if s == "" then default else s

/-- `Property.load_xml` (tmx.py lines 698-707): decode the `value` attribute
according to the declared property type. -/
def Property.load_xml (type? : Option String) (attrib : List (String × String)) :
    Except PyErr PyVal :=
  let t := pyOr type? "string"
  if t == "bool" then
    match dictGet attrib "value" with
    | some v => .ok (.bool (v == "true"))
    | none => .error (.keyError "value")
  else if t == "int" then
    match dictGet attrib "value" with
    | some v =>
      match parseInt v with
      | some n => .ok (.int n)
      | none => .error (.valueError "invalid literal for int")
    | none => .error (.keyError "value")
  else if t == "string" then
    match dictGet attrib "value" with
    | some v => .ok (.str v)
    | none => .error (.keyError "value")
  else
    .error (.valueError ("unknown property type " ++ t))

/-- C4 counterexample: the claim says a `bool` property is `False` exactly on
the text `"false"` and `True` on any other text, and that an unrecognized
type tag (such as `number`) keeps the raw text.  The code instead decodes
`bool` as `text == "true"` — so the non-`"false"` text `"1"` decodes to
`False` — and raises `ValueError` on the type tag `number`. -/
theorem property_bool_decode_counterexample :
    Property.load_xml (some "bool") [("value", "1")] = .ok (.bool false) ∧
    Property.load_xml (some "number") [("value", "1.5")] =
      .error (.valueError "unknown property type number") := by
  constructor
  · rfl
  · rfl

/-- C4 amended: the decoded value is: for type `bool`, `True` exactly when
the text is `"true"` (and `False` otherwise); for type `int`, the base-10
parse; for type `string` or an absent/empty type tag, the raw text; and any
other type tag raises `ValueError "unknown property type ..."`. -/
theorem property_decode_amended (type? : Option String)
    (a : List (String × String)) (v : String) (hv : dictGet a "value" = some v) :
    Property.load_xml (some "bool") a = .ok (.bool (v == "true")) ∧
    (∀ n, parseInt v = some n → Property.load_xml (some "int") a = .ok (.int n)) ∧
    Property.load_xml (some "string") a = .ok (.str v) ∧
    Property.load_xml none a = .ok (.str v) ∧
    (pyOr type? "string" ∉ (["bool", "int", "string"] : List String) →
      Property.load_xml type? a =
        .error (.valueError ("unknown property type " ++ pyOr type? "string"))) := by
  refine ⟨?_, ?_, ?_, ?_, ?_⟩
  · simp [Property.load_xml, pyOr, hv]
  · intro n hn
    simp [Property.load_xml, pyOr, hv, hn]
  · simp [Property.load_xml, pyOr, hv]
  · simp [Property.load_xml, pyOr, hv]
  · intro hmem
    simp only [List.mem_cons, List.not_mem_nil, or_false, not_or] at hmem
    obtain ⟨h1, h2, h3⟩ := hmem
    simp [Property.load_xml, h1, h2, h3]

/-- Witness for C4's amended claim at a concrete unrecognized type tag. -/
theorem property_decode_amended_witness :
    Property.load_xml (some "float") [("value", "2.5")] =
      .error (.valueError ("unknown property type " ++ pyOr (some "float") "string")) :=
  (property_decode_amended (some "float") [("value", "2.5")] "2.5" rfl).2.2.2.2
    (by decide)

/-! ### `LayerData` (tmx.py lines 815-847) — claim C2

`LayerData` is a Python `list` of GIDs with an extra `(x, y)` indexing mode:
a 2-tuple key is mapped to the linear index `idx[1] * self.width + idx[0]`
and handed to ordinary list indexing.  No bound check on `x` itself is
performed, so `(3, 0)` on a width-3 grid silently reads linear index 3. -/

/-- The state of a `LayerData` object: the underlying list plus the optional
`width`/`height` attributes set by `__init__`. -/
structure LayerData where
  data : List Int
  width : Option Int
  height : Option Int
deriving DecidableEq

/-- `LayerData.__init__` (tmx.py lines 821-826). -/
def LayerData.init (data : Option (List Int)) (width height : Option Int) :
    LayerData :=
  ⟨data.getD [], width, height⟩

/-- An index key handed to `LayerData.__getitem__`: a tuple of coordinates or
a plain integer. -/
inductive LDIdx where
  | tup (coords : List Int)
  | int (i : Int)

/-- `LayerData.__getitem__` (tmx.py lines 842-847): a tuple key must have
exactly 2 coordinates (`TypeError` otherwise) and maps to
`idx[1] * self.width + idx[0]`; with `width = None` the multiplication is a
`TypeError`; a plain integer indexes the list directly. -/
def LayerData.getitem (ld : LayerData) (idx : LDIdx) : Except PyErr Int :=
  match idx with
  | .tup coords =>
    if coords.length != 2 then .error .typeError
    else
      match ld.width with
      | none => .error .typeError
      | some w => pyListGet ld.data (coords.getD 1 0 * w + coords.getD 0 0)
  | .int i => pyListGet ld.data i

/-- The grid of the claim: `width=3, height=2, data=[1,2,3,4,5,6]`. -/
def layerDataExample : LayerData :=
  LayerData.init (some [1, 2, 3, 4, 5, 6]) (some 3) (some 2)

/-- C2 counterexample: the claim says reading `(x=3, y=0)` is an
`IndexOutOfRange` error; the code computes linear index `0*3+3 = 3`, which is
inside the flat list, and silently returns `4`. -/
theorem layerData_x_out_of_range_not_error :
    layerDataExample.getitem (.tup [3, 0]) = .ok 4 := by
  rfl

/-- C2 amended: reading `(2,1)` returns `6` (linear index `y*width+x`);
reading `(3,0)` silently returns `4`, the element at linear index `3` — only
a coordinate pair whose *linear* index falls outside the flat list (such as
`(3,1)`) raises `IndexOutOfRange`; a tuple key without exactly 2 coordinates
is a `TypeError`. -/
theorem layerData_pair_indexing :
    layerDataExample.getitem (.tup [2, 1]) = .ok 6 ∧
    layerDataExample.getitem (.tup [3, 0]) = .ok 4 ∧
    layerDataExample.getitem (.tup [3, 1]) = .error .indexError ∧
    layerDataExample.getitem (.tup [0, 1, 2]) = .error .typeError ∧
    layerDataExample.getitem (.tup [5]) = .error .typeError := by
  refine ⟨rfl, rfl, rfl, rfl, rfl⟩

/-! ### `Properties` (tmx.py lines 651-688) — claim C3

`Properties` is a dict with a `frozen` flag.  `__init__` sets
`frozen = False`; `__setitem__` / `pop` / `update` / `clear` raise
`ValueError("frozen object")` when frozen; `__hash__` raises
`ValueError("cannot hash unfrozen Properties")` when not frozen.
Crucially, *no code in the repository ever sets `frozen = True`*:
`Properties` defines no `post_load`, and `BaseLoader.load` only calls
`post_load` (a no-op inherited from `Data`) on each entry. -/

/-- The state of a `Properties` bag: the `frozen` flag and the dict entries. -/
structure Properties where
  frozen : Bool
  entries : List (String × PyVal)
deriving DecidableEq

/-- `Properties.__init__` (tmx.py lines 657-658). -/
def Properties.init : Properties := ⟨false, []⟩

/-- `Properties.__setitem__` (tmx.py lines 670-673). -/
def Properties.setitem (p : Properties) (k : String) (v : PyVal) :
    Except PyErr Properties :=
  if p.frozen then .error (.valueError "frozen object")
  else .ok ⟨p.frozen, dictSet p.entries k v⟩

/-- `Properties.pop` (tmx.py lines 675-678). -/
def Properties.pop (p : Properties) (k : String) (default : PyVal) :
    Except PyErr (PyVal × Properties) :=
  if p.frozen then .error (.valueError "frozen object")
  else .ok ((dictGet p.entries k).getD default, ⟨p.frozen, dictDel p.entries k⟩)

/-- `Properties.update` (tmx.py lines 680-683). -/
def Properties.update (p : Properties) (other : List (String × PyVal)) :
    Except PyErr Properties :=
  if p.frozen then .error (.valueError "frozen object")
  else .ok ⟨p.frozen, dictOverlay p.entries other⟩

/-- `Properties.clear` (tmx.py lines 685-688). -/
def Properties.clear (p : Properties) : Except PyErr Properties :=
  if p.frozen then .error (.valueError "frozen object")
  else .ok ⟨p.frozen, []⟩

/-- `Properties.__hash__` (tmx.py lines 665-668): `hash(tuple(self.items()))`
is determined by the item list, which we return; unfrozen bags raise. -/
def Properties.hashItems (p : Properties) : Except PyErr (List (String × PyVal)) :=
  if !p.frozen then .error (.valueError "cannot hash unfrozen Properties")
  else .ok p.entries

/-- `Properties.load_xml` (tmx.py lines 660-663): insert each already-decoded
`(name, value)` child via `self[i.name] = i.value`, i.e. `__setitem__`. -/
def Properties.load_xml (children : List (String × PyVal)) :
    Except PyErr Properties :=
  children.foldlM (fun p nv => p.setitem nv.1 nv.2) Properties.init

/-- `Properties.post_load`: `Properties` does not override `Data.post_load`,
so the finalization pass leaves the bag unchanged — nothing in the repository
ever sets `frozen := true`. -/
def Properties.post_load (p : Properties) : Properties := p

/-- C3 (code bug): the claim — and the spec — say the bag is frozen exactly
once after the owning entry finishes loading, after which mutations fail and
hashing works.  In the code nothing ever freezes a bag: after loading
`{"visible": ("bool", "false")}` and running the finalization pass, `frozen`
is still `false`, a subsequent `bag["x"] = 1` *succeeds*, and hashing still
raises `ValueError("cannot hash unfrozen Properties")` (which also makes
`Tile.__hash__` fail on any tile with properties). -/
theorem properties_never_frozen_after_load :
    Properties.load_xml [("visible", .bool false)] =
      .ok ⟨false, [("visible", .bool false)]⟩ ∧
    (Properties.post_load ⟨false, [("visible", .bool false)]⟩).frozen = false ∧
    (Properties.post_load ⟨false, [("visible", .bool false)]⟩).setitem "x" (.int 1) =
      .ok ⟨false, [("visible", .bool false), ("x", .int 1)]⟩ ∧
    (Properties.post_load ⟨false, [("visible", .bool false)]⟩).hashItems =
      .error (.valueError "cannot hash unfrozen Properties") := by
  refine ⟨rfl, rfl, rfl, rfl⟩

/-! ### `Tile.__setattr__` (tmx.py lines 600-625) — claim C10

A `Tile` object's attributes are modelled by its Python attribute
dictionary.  `tileset` is an `alias("parent")` descriptor, `id`,
`properties` and `frozen` are `dfield` descriptors storing under `_`-prefixed
true names; `hasattr(self, "frozen")` goes through the `frozen` descriptor
and holds exactly when `_frozen` is present.  `Tile.__setattr__` raises
`AttributeError` whenever `frozen` is set; otherwise `object.__setattr__`
routes the write through the data descriptor to the target slot (the
descriptor re-enters `__setattr__` with the true name, but the state is
unchanged between the two checks, so the two checks agree and collapse to
one). -/

/-- Where `object.__setattr__(name, v)` ultimately stores the value, through
the descriptors declared on `Tile`. -/
def descTarget (name : String) : String :=
  if name == "tileset" then "parent"
  else if name == "id" then "_id"
  else if name == "properties" then "_properties"
  else if name == "frozen" then "_frozen"
  else name

/-- `hasattr(self, "frozen")`: the `frozen` dfield reads `_frozen`. -/
def TileObj.hasattrFrozen (d : List (String × PyVal)) : Bool :=
  (dictGet d "_frozen").isSome

/-- `Tile.__setattr__` (tmx.py lines 622-625). -/
def TileObj.setattr (d : List (String × PyVal)) (name : String) (v : PyVal) :
    Except PyErr (List (String × PyVal)) :=
  if TileObj.hasattrFrozen d then .error .attributeError
  else .ok (dictSet d (descTarget name) v)

/-- `Tile.__init__` (tmx.py lines 611-620): with `id_ = None` it returns
immediately when `tileset` is also `None` (leaving the object mutable) and
raises `ValueError` otherwise; with an id it assigns `tileset`, `properties`,
`id`, and finally `frozen`, each through `__setattr__`. -/
def TileObj.init (tileset : Option PyVal) (id? : Option Int)
    (properties : Option PyVal) : Except PyErr (List (String × PyVal)) :=
  match id? with
  | none =>
    if tileset.isNone then .ok []
    else .error (.valueError "__init__ takes 0, 2, or 3 arguments, 1 given")
  | some i => do
    let d1 ← TileObj.setattr [] "tileset" (tileset.getD .pyNone)
    let d2 ← TileObj.setattr d1 "properties" (properties.getD .pyNone)
    let d3 ← TileObj.setattr d2 "id" (.int i)
    TileObj.setattr d3 "frozen" .pyNone

/-- C10: once a `Tile`'s `frozen` attribute has been assigned, every
subsequent attribute assignment raises `AttributeError` (so `tileset`, `id`,
`properties` can never change); a `Tile()` constructed with no arguments has
no `frozen` attribute and stays mutable; and full construction ends with
`frozen` assigned, hence immutable. -/
theorem tile_immutable_after_frozen :
    (∀ d name v, TileObj.hasattrFrozen d = true →
      TileObj.setattr d name v = .error .attributeError) ∧
    (TileObj.init none none none = .ok [] ∧
      ∀ name v, TileObj.setattr [] name v = .ok (dictSet [] (descTarget name) v)) ∧
    (∀ ts i p, ∃ d, TileObj.init ts (some i) p = .ok d ∧
      TileObj.hasattrFrozen d = true ∧
      ∀ name v, TileObj.setattr d name v = .error .attributeError) := by
  refine ⟨?_, ⟨rfl, ?_⟩, ?_⟩
  · intro d name v h
    simp [TileObj.setattr, h]
  · intro name v
    simp [TileObj.setattr, TileObj.hasattrFrozen, dictGet]
  · intro ts i p
    refine ⟨[("parent", ts.getD .pyNone), ("_properties", p.getD .pyNone),
      ("_id", .int i), ("_frozen", .pyNone)], ?_, ?_, ?_⟩
    · rfl
    · simp [TileObj.hasattrFrozen, dictGet, List.find?]
    · intro name v
      simp [TileObj.setattr, TileObj.hasattrFrozen, dictGet, List.find?]

/-- Witness for C10: a frozen state rejects a concrete assignment. -/
theorem tile_immutable_after_frozen_witness :
    TileObj.setattr [("_frozen", PyVal.pyNone)] "id" (PyVal.int 5) =
      .error .attributeError :=
  tile_immutable_after_frozen.1 [("_frozen", PyVal.pyNone)] "id" (PyVal.int 5)
    (by decide)

/-! ### XML elements and shared attribute extraction

`XElem` models an `xml.etree.ElementTree.Element`: tag, attribute dict,
children.  `dfieldIntAttr` models the code generated by
`dfield.generate_xml_load_code` (tmx.py lines 325-336) for a required
`int`-annotated attribute field: `self.name = coerce(int, element.attrib[k])`
— the subscript raises `KeyError(k)` when the attribute is missing, with no
enclosing try/except. -/

/-- An XML element: tag name, attribute dictionary, child elements. -/
structure XElem where
  tag : String
  attrib : List (String × String)
  children : List XElem

/-- The `int`-branch of `coerce`: `int(value)` parses base-10 or raises
`ValueError`. -/
def coerceInt (value : String) : Except PyErr Int :=
  match parseInt value with
  | some n => .ok n
  | none => .error (.valueError "invalid literal for int")

theorem coerce_int_eq (value : String) :
    coerce PyType.int value = (coerceInt value).map PyVal.int := by
  cases h : parseInt value <;>
    simp [coerce, coerceInt, base_annotation_type, isinstance_bool, pyCallType,
      Except.map, h]

/-- Generated load code for a required `int` attribute `dfield`:
`coerce(int, element.attrib[k])`; a missing attribute raises `KeyError(k)`. -/
def dfieldIntAttr (a : List (String × String)) (k : String) : Except PyErr Int :=
  match dictGet a k with
  | none => .error (.keyError k)
  | some s => coerceInt s

/-- A lookup that succeeds pins the looked-up pair as a member of the dict. -/
theorem mem_of_dictGet_eq_some {α : Type} {d : List (String × α)} {k : String}
    {v : α} (h : dictGet d k = some v) : (k, v) ∈ d := by
  unfold dictGet at h
  obtain ⟨p, hfind, hsnd⟩ := Option.map_eq_some'.mp h
  have hmem := List.mem_of_find?_eq_some hfind
  have hkey : p.1 = k := by
    simpa using List.find?_some hfind
  have : p = (k, v) := by
    obtain ⟨p1, p2⟩ := p
    simp only at hkey hsnd
    rw [hkey, hsnd]
  rwa [this] at hmem

/-! ### `TypeSpecializable._load` (tmx.py lines 40-59) — claim C6

A base class declared `base=True` carries `OBJECT_TYPES`, a registry from the
discriminant attribute value (`cls.ATTRIB`, e.g. `"class"`) to concrete
subtypes.  `_load` on the base reads the discriminant from the raw node: if
it is absent or unregistered, construction falls through to the base type's
own `Data._load` (its own schema); otherwise it delegates to the registered
subtype's `_load`, which — not being the base — immediately falls through to
`Data._load` with the subtype's schema. -/

/-- The per-class data used by dispatch: the class name and its attribute
field schema. -/
structure SpecClass where
  clsName : String
  schema : List String
deriving DecidableEq

/-- A constructed entity: which concrete class built it, and the attribute
fields extracted by that class's own schema. -/
structure EntityC where
  builtBy : String
  fields : List (String × Option String)
deriving DecidableEq

/-- `Data._load` field extraction for a class's attribute schema over a raw
node. -/
def Data.loadWith (c : SpecClass) (e : XElem) : EntityC :=
  ⟨c.clsName, c.schema.map (fun f => (f, dictGet e.attrib f))⟩

/-- `TypeSpecializable._load` on the `OBJECT_BASE` class (tmx.py lines
44-50): read the discriminant attribute, delegate to the registered subtype
when there is one, else fall back to the base type's own load. -/
def TypeSpecializable.load (base : SpecClass) (attribName : String)
    (objectTypes : List (String × SpecClass)) (e : XElem) : EntityC :=
  match dictGet e.attrib attribName with
  | none => Data.loadWith base e
  | some stype =>
    match dictGet objectTypes stype with
    | none => Data.loadWith base e
    | some sub => Data.loadWith sub e

/-- C6: if the node's discriminant attribute value is registered, the
construction is delegated entirely to the registered subtype and that
subtype's own schema applies; if the discriminant is absent or unregistered,
construction falls back to the base type's own schema (producing a base
entity, never an error). -/
theorem typeSpecializable_dispatch (base : SpecClass) (attribName : String)
    (objectTypes : List (String × SpecClass)) (e : XElem) :
    (∀ s sub, dictGet e.attrib attribName = some s →
      dictGet objectTypes s = some sub →
      TypeSpecializable.load base attribName objectTypes e = Data.loadWith sub e ∧
      (TypeSpecializable.load base attribName objectTypes e).builtBy = sub.clsName ∧
      (TypeSpecializable.load base attribName objectTypes e).fields =
        sub.schema.map (fun f => (f, dictGet e.attrib f))) ∧
    (dictGet e.attrib attribName = none →
      TypeSpecializable.load base attribName objectTypes e = Data.loadWith base e) ∧
    (∀ s, dictGet e.attrib attribName = some s → dictGet objectTypes s = none →
      TypeSpecializable.load base attribName objectTypes e = Data.loadWith base e) := by
  refine ⟨?_, ?_, ?_⟩
  · intro s sub hs hsub
    refine ⟨?_, ?_, ?_⟩ <;> simp [TypeSpecializable.load, hs, hsub, Data.loadWith]
  · intro hnone
    simp [TypeSpecializable.load, hnone]
  · intro s hs hnone
    simp [TypeSpecializable.load, hs, hnone]

/-- The registered object-group subtype of the witness: discriminant
`"spawn"`. -/
def spawnClass : SpecClass := ⟨"SpawnGroup", ["id", "z"]⟩

/-- The base object-group class of the witness. -/
def objectGroupClass : SpecClass := ⟨"ObjectGroup", ["id"]⟩

/-- Witness for C6: an object-group node carrying discriminant `"spawn"` with
a registered `"spawn"` subtype constructs that subtype; the same node type
with an unregistered discriminant falls back to the base class. -/
theorem typeSpecializable_dispatch_witness :
    TypeSpecializable.load objectGroupClass "class" [("spawn", spawnClass)]
        ⟨"objectgroup", [("class", "spawn"), ("id", "7"), ("z", "1")], []⟩ =
      Data.loadWith spawnClass
        ⟨"objectgroup", [("class", "spawn"), ("id", "7"), ("z", "1")], []⟩ ∧
    TypeSpecializable.load objectGroupClass "class" [("spawn", spawnClass)]
        ⟨"objectgroup", [("class", "other"), ("id", "7")], []⟩ =
      Data.loadWith objectGroupClass
        ⟨"objectgroup", [("class", "other"), ("id", "7")], []⟩ := by
  constructor
  · exact ((typeSpecializable_dispatch objectGroupClass "class" [("spawn", spawnClass)]
      ⟨"objectgroup", [("class", "spawn"), ("id", "7"), ("z", "1")], []⟩).1
      "spawn" spawnClass rfl rfl).1
  · exact (typeSpecializable_dispatch objectGroupClass "class" [("spawn", spawnClass)]
      ⟨"objectgroup", [("class", "other"), ("id", "7")], []⟩).2.2
      "other" rfl rfl

/-! ### Remote reference resolution, `Data._load` (tmx.py lines 425-476) — claim C5

For a `MAYBE_REMOTE` class whose raw node carries a `source` attribute,
`Data._load`: resolves the path relative to the current file's directory,
parses the referenced file, overlays every attribute of the referencing node
onto the remote root (referencing node's values win), deletes the `source`
attribute, loads the merged node from the remote path (which sets
`obj.source = rsrc_path`), and finally overwrites `obj.source = src` — the
original reference string. -/

/-- `os.path.dirname`: everything before the last `/` (empty when there is
no slash). -/
def osDirname (p : String) : String :=
  match p.data.reverse.dropWhile (fun c => c ≠ '/') with
  | [] => ""
  | _ :: rest => ⟨rest.reverse⟩

/-- `os.path.join` for the relative reference paths the loader produces
(`osDirname` never yields a trailing slash). -/
def osJoin (d f : String) : String :=
  if d == "" then f else d ++ "/" ++ f

/-- The attribute-bearing fields of a loaded `Tileset` (tmx.py lines
544-548) plus its recorded `source`; the child- and loader-computed fields
(`img`, `_tiles`, `tiledata`, `tile_cls`) are independent of the attribute
overlay under study. -/
structure TilesetRec where
  tilewidth : Int
  tileheight : Int
  tilecount : Int
  columns : Int
  firstgid : Int
  source : String
deriving DecidableEq

/-- Plain (non-remote) construction of a `Tileset` from a node: extract the
required `int` attribute dfields in declaration order; `Data._load` sets
`obj.source = path` for `MAYBE_REMOTE` classes (tmx.py lines 458-459). -/
def Tileset.load_attrs (e : XElem) (path : String) : Except PyErr TilesetRec :=
  match dfieldIntAttr e.attrib "tilewidth" with
  | .error err => .error err
  | .ok tw =>
  match dfieldIntAttr e.attrib "tileheight" with
  | .error err => .error err
  | .ok th =>
  match dfieldIntAttr e.attrib "tilecount" with
  | .error err => .error err
  | .ok tc =>
  match dfieldIntAttr e.attrib "columns" with
  | .error err => .error err
  | .ok cols =>
  match dfieldIntAttr e.attrib "firstgid" with
  | .error err => .error err
  | .ok fg => .ok ⟨tw, th, tc, cols, fg, path⟩

/-- The merged node built by the remote branch of `Data._load` (tmx.py lines
435-437): overlay the referencing node's attributes onto the remote root,
then delete `source`. -/
def mergedNode (rsrc dataObj : XElem) : XElem :=
  ⟨rsrc.tag, dictDel (dictOverlay rsrc.attrib dataObj.attrib) "source",
    rsrc.children⟩

/-- `Tileset._load` over an XML node (tmx.py lines 429-440 and 454-476):
with a `source` attribute the referenced file is loaded from `fs`, the merged
node is constructed at the remote path (a missing file aborts the load), and
the result's `source` is overwritten with the original reference string;
without `source`, plain construction at the current path. -/
def Tileset.loadXml (fs : String → Option XElem) (e : XElem) (path : String) :
    Except PyErr TilesetRec :=
  match dictGet e.attrib "source" with
  | some src =>
    match fs (osJoin (osDirname path) src) with
    | none => .error (.valueError "unresolved source")
    | some rsrc =>
      match Tileset.load_attrs (mergedNode rsrc e) (osJoin (osDirname path) src) with
      | .ok obj => .ok { obj with source := src }
      | .error err => .error err
  | none => Tileset.load_attrs e path

/-- C5: for a remote tileset node, every attribute present on the referencing
node is overlaid onto the loaded remote root with the referencing node's
values taking precedence (so `firstgid` equals the referencing node's value
even if the remote file declares a different one), the `source` attribute is
removed before construction, and the constructed entity's recorded `source`
equals the original reference path string, not the resolved path. -/
theorem tileset_remote_resolution (fs : String → Option XElem) (e rsrc : XElem)
    (path src fgs : String) (n : Int) (obj : TilesetRec)
    (hnd : (e.attrib.map Prod.fst).Nodup)
    (hsrc : dictGet e.attrib "source" = some src)
    (hfg : dictGet e.attrib "firstgid" = some fgs)
    (hn : parseInt fgs = some n)
    (hfile : fs (osJoin (osDirname path) src) = some rsrc)
    (hok : Tileset.load_attrs (mergedNode rsrc e) (osJoin (osDirname path) src) =
      .ok obj) :
    Tileset.loadXml fs e path = .ok { obj with source := src } ∧
    obj.firstgid = n ∧
    dictGet (mergedNode rsrc e).attrib "source" = none ∧
    (∀ k v, k ≠ "source" → dictGet e.attrib k = some v →
      dictGet (mergedNode rsrc e).attrib k = some v) := by
  have hover : ∀ k v, k ≠ "source" → dictGet e.attrib k = some v →
      dictGet (mergedNode rsrc e).attrib k = some v := by
    intro k v hk hkv
    show dictGet (dictDel (dictOverlay rsrc.attrib e.attrib) "source") k = some v
    rw [dictGet_dictDel_ne _ _ _ hk]
    exact dictGet_dictOverlay_of_mem rsrc.attrib e.attrib k v hnd
      (mem_of_dictGet_eq_some hkv)
  have hmfg : dictGet (mergedNode rsrc e).attrib "firstgid" = some fgs :=
    hover "firstgid" fgs (by decide) hfg
  have hobjfg : obj.firstgid = n := by
    unfold Tileset.load_attrs at hok
    cases h1 : dfieldIntAttr (mergedNode rsrc e).attrib "tilewidth" with
    | error e1 => rw [h1] at hok; exact Except.noConfusion hok
    | ok tw =>
    rw [h1] at hok
    cases h2 : dfieldIntAttr (mergedNode rsrc e).attrib "tileheight" with
    | error e2 => rw [h2] at hok; exact Except.noConfusion hok
    | ok th =>
    rw [h2] at hok
    cases h3 : dfieldIntAttr (mergedNode rsrc e).attrib "tilecount" with
    | error e3 => rw [h3] at hok; exact Except.noConfusion hok
    | ok tc =>
    rw [h3] at hok
    cases h4 : dfieldIntAttr (mergedNode rsrc e).attrib "columns" with
    | error e4 => rw [h4] at hok; exact Except.noConfusion hok
    | ok cols =>
    rw [h4] at hok
    cases h5 : dfieldIntAttr (mergedNode rsrc e).attrib "firstgid" with
    | error e5 => rw [h5] at hok; exact Except.noConfusion hok
    | ok fg =>
    rw [h5] at hok
    have hE : (⟨tw, th, tc, cols, fg, osJoin (osDirname path) src⟩ : TilesetRec) = obj :=
      Except.ok.inj hok
    have h5c := h5
    unfold dfieldIntAttr at h5c
    rw [hmfg] at h5c
    have h5b : coerceInt fgs = Except.ok fg := h5c
    unfold coerceInt at h5b
    rw [hn] at h5b
    have hfgn : n = fg := Except.ok.inj h5b
    rw [← hE]
    exact hfgn.symm
  refine ⟨?_, hobjfg, ?_, hover⟩
  · simp only [Tileset.loadXml, hsrc, hfile, hok]
  · exact dictGet_dictDel_self (dictOverlay rsrc.attrib e.attrib) "source"

/-- The referencing node of the C5 witness: `<tileset source="tiles.tsx"
firstgid="5"/>` inside `maps/level.tmx`. -/
def remoteRefNode : XElem := ⟨"tileset", [("firstgid", "5"), ("source", "tiles.tsx")], []⟩

/-- The remote file `maps/tiles.tsx` of the C5 witness: it declares its own
`firstgid="1"`, which the referencing node must override. -/
def remoteFileNode : XElem :=
  ⟨"tileset", [("tilewidth", "16"), ("tileheight", "16"), ("tilecount", "8"),
    ("columns", "4"), ("firstgid", "1")], []⟩

/-- The file system of the C5 witness. -/
def remoteFs (p : String) : Option XElem :=
  if p == "maps/tiles.tsx" then some remoteFileNode else none

/-- Witness for C5 at the concrete node of the claim: the loaded tileset has
`firstgid = 5` (overriding the remote file's `1`) and records
`source = "tiles.tsx"`, not the resolved path. -/
theorem tileset_remote_resolution_witness :
    Tileset.loadXml remoteFs remoteRefNode "maps/level.tmx" =
      .ok ⟨16, 16, 8, 4, 5, "tiles.tsx"⟩ ∧
    dictGet (mergedNode remoteFileNode remoteRefNode).attrib "source" = none := by
  have h := tileset_remote_resolution remoteFs remoteRefNode remoteFileNode
    "maps/level.tmx" "tiles.tsx" "5" 5 ⟨16, 16, 8, 4, 5, "maps/tiles.tsx"⟩
    (by decide) rfl rfl (by decide) rfl rfl
  exact ⟨h.1, h.2.2.1⟩

/-! ### Missing required field (tmx.py lines 297-338, base.py lines 257-288) — claim C7

`TileLayer` (tmx.py lines 725-736) declares the required `int` attribute
dfields `id`, `width`, `height` in that order (its remaining fields are
optional or child-extracted).  The generated XML load code for a required
attribute is `self.width = coerce(int, element.attrib['width'])` with no
enclosing try/except, so a missing `width` raises a bare `KeyError('width')`
— an error that carries the attribute name but nowhere names the owning
entity type (`base.py`'s descriptor path instead raises
`ValueError("required attribute width not found")`, which likewise names
only the field). -/

/-- The required attribute fields of a `TileLayer`. -/
structure TileLayerRec where
  id : Int
  width : Int
  height : Int
deriving DecidableEq

/-- The generated `_load_xml` for `TileLayer`'s required attribute dfields,
in declaration order. -/
def TileLayer.load_xml_gen (e : XElem) : Except PyErr TileLayerRec :=
  match dfieldIntAttr e.attrib "id" with
  | .error err => .error err
  | .ok i =>
  match dfieldIntAttr e.attrib "width" with
  | .error err => .error err
  | .ok w =>
  match dfieldIntAttr e.attrib "height" with
  | .error err => .error err
  | .ok h => .ok ⟨i, w, h⟩

/-- Substring test used to state "the error message does not mention the
entity type": `containsSub hay needle` decides whether `needle` occurs
contiguously in `hay`. -/
def containsSub : List Char → List Char → Bool
  | _, [] => true
  | [], _ :: _ => false
  | c :: t, n => List.isPrefixOf n (c :: t) || containsSub t n

/-- String-level wrapper for `containsSub`. -/
def strMentions (hay needle : String) : Bool :=
  containsSub hay.data needle.data

/-- C7 counterexample: the claim says a tile layer missing `width` raises an
error naming both the field and the owning entity type.  The generated code
raises a bare `KeyError("width")`: its payload is the attribute name alone
and mentions neither `TileLayer` nor `layer`. -/
theorem tileLayer_missing_width_keyerror :
    TileLayer.load_xml_gen ⟨"layer", [("id", "1"), ("height", "4")], []⟩ =
      .error (.keyError "width") ∧
    strMentions "width" "TileLayer" = false ∧
    strMentions "width" "layer" = false := by
  refine ⟨rfl, ?_, ?_⟩ <;> decide

/-- C7 amended: loading a tile-layer node whose `width` attribute is missing
(and whose `id` loaded) raises an error identifying the missing field — a
`KeyError("width")` from the generated attribute code — but not naming the
owning entity type; the error aborts the load, so no document is returned. -/
theorem tileLayer_missing_width_amended (tag : String)
    (a : List (String × String)) (ch : List XElem) (i : Int)
    (hid : dfieldIntAttr a "id" = .ok i) (hw : dictGet a "width" = none) :
    TileLayer.load_xml_gen ⟨tag, a, ch⟩ = .error (.keyError "width") := by
  simp only [TileLayer.load_xml_gen, hid]
  simp only [dfieldIntAttr, hw]

/-- Witness for C7's amended claim at the concrete node of the
counterexample. -/
theorem tileLayer_missing_width_amended_witness :
    TileLayer.load_xml_gen ⟨"layer", [("id", "1"), ("height", "4")], []⟩ =
      .error (.keyError "width") :=
  tileLayer_missing_width_amended "layer" [("id", "1"), ("height", "4")] [] 1
    rfl rfl

/-! ### `BaseLoader.load` and `post_load` order (tmx.py lines 68-79, 454-476) — claim C8

`Data._load` first recursively loads every child of the raw node (each
recursive call appends its own entity to `loaded_memo`) and appends the
freshly built object to `loaded_memo` *after* its children; `BaseLoader.load`
then iterates `loaded_memo` front to back invoking `post_load` once per
entry.  We model object identity by a creation counter: an entity's `eid` is
its position in the creation order. -/

/-- A raw document node: a tag and its child nodes. -/
inductive RawNode where
  | mk (tag : String) (children : List RawNode)

/-- A constructed entry as recorded in `loaded_memo`: its creation index,
tag, and the creation indices of its children. -/
structure LEntity where
  eid : Nat
  tag : String
  childIds : List Nat
deriving DecidableEq

mutual

/-- `Data._load` over an XML node (tmx.py lines 454-476): load the children
left to right (threading the creation counter and `loaded_memo`), then
append the new object.  Returns (this entity's id, next counter, memo). -/
def Data.loadTree (n : RawNode) (ctr : Nat) (memo : List LEntity) :
    Nat × Nat × List LEntity :=
  match n with
  | .mk tag children =>
    let r := Data.loadChildren children ctr memo
    (r.2.1, r.2.1 + 1, r.2.2 ++ [⟨r.2.1, tag, r.1⟩])

/-- The list comprehension `[loader.load_xml(i, ...) for i in data_obj]`
inside `Data._load`: loads each child in order.  Returns (child ids, next
counter, memo). -/
def Data.loadChildren (l : List RawNode) (ctr : Nat) (memo : List LEntity) :
    List Nat × Nat × List LEntity :=
  match l with
  | [] => ([], ctr, memo)
  | c :: rest =>
    let r := Data.loadTree c ctr memo
    let r2 := Data.loadChildren rest r.2.1 r.2.2
    (r.1 :: r2.1, r2.2.1, r2.2.2)

end

mutual

/-- Number of nodes in a raw tree. -/
def sizeRN : RawNode → Nat
  | .mk _ children => sizeListRN children + 1

/-- Number of nodes in a forest. -/
def sizeListRN : List RawNode → Nat
  | [] => 0
  | c :: rest => sizeRN c + sizeListRN rest

end

theorem sizeRN_pos (n : RawNode) : 0 < sizeRN n := by
  cases n
  simp [sizeRN]

/-- `BaseLoader.load` (tmx.py lines 68-79): after the recursive build, the
`for obj in loaded_memo: obj.post_load()` loop invokes `post_load` on exactly
the entries of `loaded_memo`, front to back — so this list *is* the sequence
of `post_load` invocations. -/
def BaseLoader.load_post_calls (root : RawNode) : List LEntity :=
  (Data.loadTree root 0 []).2.2

mutual

theorem loadTree_spec (n : RawNode) (ctr : Nat) (memo : List LEntity) :
    (Data.loadTree n ctr memo).2.1 = ctr + sizeRN n ∧
    (Data.loadTree n ctr memo).1 = ctr + sizeRN n - 1 ∧
    (Data.loadTree n ctr memo).2.2.map (fun e => e.eid) =
      memo.map (fun e => e.eid) ++ List.range' ctr (sizeRN n) ∧
    ∀ e ∈ (Data.loadTree n ctr memo).2.2, e ∈ memo ∨ ∀ c ∈ e.childIds, c < e.eid := by
  match n with
  | .mk tag children =>
    obtain ⟨hctr, hids, hmap, hok⟩ := loadChildren_spec children ctr memo
    refine ⟨?_, ?_, ?_, ?_⟩
    · show (Data.loadChildren children ctr memo).2.1 + 1 = ctr + sizeRN (.mk tag children)
      rw [hctr, sizeRN]
      omega
    · show (Data.loadChildren children ctr memo).2.1 = ctr + sizeRN (.mk tag children) - 1
      rw [hctr, sizeRN]
      omega
    · show ((Data.loadChildren children ctr memo).2.2 ++
        [(⟨(Data.loadChildren children ctr memo).2.1, tag,
          (Data.loadChildren children ctr memo).1⟩ : LEntity)]).map (fun e => e.eid) =
        memo.map (fun e => e.eid) ++ List.range' ctr (sizeRN (.mk tag children))
      rw [List.map_append, hmap, hctr, sizeRN]
      rw [List.range'_concat ctr (sizeListRN children)]
      simp [List.append_assoc]
    · intro e he
      have he2 : e ∈ (Data.loadChildren children ctr memo).2.2 ++
        [(⟨(Data.loadChildren children ctr memo).2.1, tag,
          (Data.loadChildren children ctr memo).1⟩ : LEntity)] := he
      rcases List.mem_append.mp he2 with h1 | h2
      · exact hok e h1
      · right
        have heq : e = ⟨(Data.loadChildren children ctr memo).2.1, tag,
            (Data.loadChildren children ctr memo).1⟩ := by
          simpa using h2
        intro c hc
        rw [heq]
        rw [heq] at hc
        simp only at hc ⊢
        have := hids c hc
        omega

theorem loadChildren_spec (l : List RawNode) (ctr : Nat) (memo : List LEntity) :
    (Data.loadChildren l ctr memo).2.1 = ctr + sizeListRN l ∧
    (∀ i ∈ (Data.loadChildren l ctr memo).1, i < ctr + sizeListRN l) ∧
    (Data.loadChildren l ctr memo).2.2.map (fun e => e.eid) =
      memo.map (fun e => e.eid) ++ List.range' ctr (sizeListRN l) ∧
    ∀ e ∈ (Data.loadChildren l ctr memo).2.2, e ∈ memo ∨ ∀ c ∈ e.childIds, c < e.eid := by
  match l with
  | [] =>
    refine ⟨by simp [Data.loadChildren, sizeListRN], ?_, ?_, ?_⟩
    · intro i hi
      simp [Data.loadChildren] at hi
    · simp [Data.loadChildren, sizeListRN]
    · intro e he
      simp [Data.loadChildren] at he
      exact Or.inl he
  | c :: rest =>
    obtain ⟨tctr, teid, tmap, tok⟩ := loadTree_spec c ctr memo
    obtain ⟨rctr, rids, rmap, rok⟩ :=
      loadChildren_spec rest (Data.loadTree c ctr memo).2.1 (Data.loadTree c ctr memo).2.2
    have hszc := sizeRN_pos c
    refine ⟨?_, ?_, ?_, ?_⟩
    · show (Data.loadChildren rest (Data.loadTree c ctr memo).2.1
        (Data.loadTree c ctr memo).2.2).2.1 = ctr + sizeListRN (c :: rest)
      rw [rctr, tctr, sizeListRN]
      omega
    · intro i hi
      show i < ctr + sizeListRN (c :: rest)
      have hi2 : i ∈ (Data.loadTree c ctr memo).1 ::
          (Data.loadChildren rest (Data.loadTree c ctr memo).2.1
            (Data.loadTree c ctr memo).2.2).1 := hi
      rcases List.mem_cons.mp hi2 with h1 | h2
      · rw [h1, teid, sizeListRN]
        omega
      · have := rids i h2
        rw [tctr] at this
        rw [sizeListRN]
        omega
    · show (Data.loadChildren rest (Data.loadTree c ctr memo).2.1
        (Data.loadTree c ctr memo).2.2).2.2.map (fun e => e.eid) =
        memo.map (fun e => e.eid) ++ List.range' ctr (sizeListRN (c :: rest))
      rw [rmap, tmap, tctr, sizeListRN]
      have happ := List.range'_append ctr (sizeRN c) (sizeListRN rest) 1
      simp only [Nat.one_mul] at happ
      rw [List.append_assoc, happ, Nat.add_comm (sizeListRN rest) (sizeRN c)]
    · intro e he
      have he2 : e ∈ (Data.loadChildren rest (Data.loadTree c ctr memo).2.1
          (Data.loadTree c ctr memo).2.2).2.2 := he
      rcases rok e he2 with h1 | h2
      · exact tok e h1
      · exact Or.inr h2

end

/-- C8: `post_load` is invoked exactly once per constructed entry, only after
the entire document tree is built, and the invocations follow creation order
(depth-first, children recorded before their parent): the invocation list's
creation indices are exactly `0, 1, ..., size-1` in order (each entry exactly
once, strictly increasing — never reversed or arbitrary), every entry's
children have smaller creation indices than the entry itself (so a parent
such as a Map sees its children finalized first), and the root is the last
entry finalized. -/
theorem post_load_creation_order (root : RawNode) :
    (BaseLoader.load_post_calls root).map (fun e => e.eid) =
      List.range (sizeRN root) ∧
    List.Pairwise (fun a b => a.eid < b.eid) (BaseLoader.load_post_calls root) ∧
    (∀ e ∈ BaseLoader.load_post_calls root, ∀ c ∈ e.childIds, c < e.eid) ∧
    (Data.loadTree root 0 []).1 = sizeRN root - 1 := by
  obtain ⟨hctr, heid, hmap, hok⟩ := loadTree_spec root 0 []
  have hmap2 : (BaseLoader.load_post_calls root).map (fun e => e.eid) =
      List.range (sizeRN root) := by
    rw [BaseLoader.load_post_calls, hmap, List.range_eq_range']
    simp
  refine ⟨hmap2, ?_, ?_, by simpa using heid⟩
  · have hpw : List.Pairwise (fun a b => a < b)
        ((BaseLoader.load_post_calls root).map (fun e => e.eid)) := by
      rw [hmap2, List.range_eq_range']
      exact List.pairwise_lt_range' 0 (sizeRN root)
    exact List.pairwise_map.mp hpw
  · intro e he c hc
    rcases hok e he with h1 | h2
    · simp at h1
    · exact h2 c hc

/-! ### `TileCollection` (tmx.py lines 493-510) and `Tileset.__getitem__` (lines 562-567) — claim C1

A `Tile` value as resolved by GID lookup is characterized by its owning
tileset (`Tile.tileset` is `alias("parent")`; we record the owner's identity)
and its local id.  A `Tileset` carries `firstgid`, `tilecount` and its
`_tiles` child list, from which `tiledata = {i.id: i for i in obj._tiles}`
is computed (later duplicates overwrite, so lookup finds the last match).

`TileCollection.__init__` sorts the tilesets by `firstgid` — Python `sorted`
is a comparison sort (stable), and `List.insertionSort` is one too; on the
duplicate-free keys of a consistent map every comparison sort returns the
same list.  `__getitem__` returns the sentinel `tile_cls(None, 0, None)` for
GID `0` and otherwise locates the tileset by `bisect.bisect_left` on the
`firstgid` keys, stepping one slot left unless the probed slot's `firstgid`
equals the GID exactly (a `-1` index wraps to the last tileset, as in
Python). -/

/-- A tile as produced by GID lookup: owning tileset identity (`none` for
the sentinel "no tile") and local id. -/
structure TsTile where
  tilesetRef : Option Nat
  id : Int
deriving DecidableEq

/-- A loaded tileset: identity, `firstgid`, `tilecount`, and the `_tiles`
child list backing `tiledata`. -/
structure Tileset where
  tsid : Nat
  firstgid : Int
  tilecount : Int
  tiles : List TsTile
deriving DecidableEq

/-- Lookup in `tiledata = {i.id: i for i in obj._tiles}`: the dict
comprehension lets later entries overwrite earlier ones, so lookup returns
the last tile with the given id. -/
def Tileset.tiledataGet (ts : Tileset) (k : Int) : Option TsTile :=
  ts.tiles.reverse.find? (fun tl => tl.id == k)

/-- `Tileset.__getitem__` (tmx.py lines 562-567): local ids outside
`[0, tilecount)` raise `IndexError`; a `tiledata` entry is returned when
present, else a fresh `tile_cls(self, tileid, None)`. -/
def Tileset.getitem (ts : Tileset) (tileid : Int) : Except PyErr TsTile :=
  if tileid < 0 ∨ ts.tilecount ≤ tileid then .error .indexError
  else
    match ts.tiledataGet tileid with
    | some tl => .ok tl
    | none => .ok ⟨some ts.tsid, tileid⟩

/-- The comparison key of `sorted(tilesets, key=lambda x: x.firstgid)`. -/
def tsLE (a b : Tileset) : Prop := a.firstgid ≤ b.firstgid

instance : DecidableRel tsLE := fun a b =>
  inferInstanceAs (Decidable (a.firstgid ≤ b.firstgid))

instance : IsTotal Tileset tsLE := ⟨fun a b => le_total a.firstgid b.firstgid⟩

instance : IsTrans Tileset tsLE := ⟨fun _ _ _ h1 h2 => le_trans h1 h2⟩

/-- The state of a `TileCollection`: its sorted tileset list (`tile_cls` is
the plain `Tile` constructor, fixed in this model). -/
structure TileCollection where
  tilesets : List Tileset

/-- `TileCollection.__init__` (tmx.py lines 499-501): sort by `firstgid`. -/
def TileCollection.init (tilesets : List Tileset) : TileCollection :=
  ⟨List.insertionSort tsLE tilesets⟩

/-- The loop of `bisect.bisect_left(a, x)` over `a[lo:hi]`: binary search for
the leftmost insertion point. -/
def bisectLeftGo (a : List Int) (x : Int) (lo hi : Nat) : Nat :=
  if h : lo < hi then
    let mid := (lo + hi) / 2
    if a.getD mid 0 < x then bisectLeftGo a x (mid + 1) hi
    else bisectLeftGo a x lo mid
  else lo
termination_by hi - lo
decreasing_by
  · omega
  · omega

/-- `bisect.bisect_left(a, x)` (with `a` already the list of keys). -/
def bisect_left (a : List Int) (x : Int) : Nat :=
  bisectLeftGo a x 0 a.length

/-- `TileCollection.__getitem__` (tmx.py lines 503-510): GID `0` yields the
sentinel `tile_cls(None, 0, None)`; otherwise binary-search the sorted
`firstgid` keys, step one slot left unless the probed slot's key equals the
GID (Python list indexing handles a `-1` by wrapping), and resolve the local
id `gid - firstgid` in the located tileset. -/
def TileCollection.getitem (tc : TileCollection) (gid : Int) : Except PyErr TsTile :=
  if gid = 0 then .ok ⟨none, 0⟩
  else
    let idx := bisect_left (tc.tilesets.map (fun u => u.firstgid)) gid
    let idx2 : Int :=
      if idx = tc.tilesets.length ∨
          (tc.tilesets.get? idx).map (fun u => u.firstgid) ≠ some gid then
        (idx : Int) - 1
      else (idx : Int)
    match pyListGet tc.tilesets idx2 with
    | .error err => .error err
    | .ok tileset => tileset.getitem (gid - tileset.firstgid)

theorem bisectLeftGo_eq_of_stop (a : List Int) (x : Int) (lo hi : Nat)
    (h : ¬(lo < hi)) : bisectLeftGo a x lo hi = lo := by
  rw [bisectLeftGo, dif_neg h]

theorem bisectLeftGo_eq_of_lt (a : List Int) (x : Int) (lo hi : Nat)
    (h : lo < hi) (hc : a.getD ((lo + hi) / 2) 0 < x) :
    bisectLeftGo a x lo hi = bisectLeftGo a x ((lo + hi) / 2 + 1) hi := by
  rw [bisectLeftGo, dif_pos h]
  simp only [hc, if_true]

theorem bisectLeftGo_eq_of_ge (a : List Int) (x : Int) (lo hi : Nat)
    (h : lo < hi) (hc : ¬(a.getD ((lo + hi) / 2) 0 < x)) :
    bisectLeftGo a x lo hi = bisectLeftGo a x lo ((lo + hi) / 2) := by
  rw [bisectLeftGo, dif_pos h]
  simp only [hc, if_false]

theorem pairwise_le_getD (a : List Int) (hs : a.Pairwise (fun p q => p ≤ q))
    (i j : Nat) (hij : i ≤ j) (hj : j < a.length) :
    a.getD i 0 ≤ a.getD j 0 := by
  rcases eq_or_lt_of_le hij with heq | hlt
  · rw [heq]
  · have hi : i < a.length := lt_trans hlt hj
    rw [List.getD_eq_get _ _ hi, List.getD_eq_get _ _ hj]
    exact (List.pairwise_iff_get.mp hs) ⟨i, hi⟩ ⟨j, hj⟩ hlt

theorem bisectLeftGo_spec (a : List Int) (x : Int)
    (hs : a.Pairwise (fun p q => p ≤ q)) :
    ∀ (fuel lo hi : Nat), hi - lo ≤ fuel → lo ≤ hi → hi ≤ a.length →
      lo ≤ bisectLeftGo a x lo hi ∧ bisectLeftGo a x lo hi ≤ hi ∧
      (∀ i, lo ≤ i → i < bisectLeftGo a x lo hi → a.getD i 0 < x) ∧
      (∀ i, bisectLeftGo a x lo hi ≤ i → i < hi → x ≤ a.getD i 0) := by
  intro fuel
  induction fuel with
  | zero =>
    intro lo hi hfuel hlohi hhi
    have hstop : ¬(lo < hi) := by omega
    rw [bisectLeftGo_eq_of_stop a x lo hi hstop]
    refine ⟨le_refl lo, by omega, ?_, ?_⟩
    · intro i h1 h2
      exact absurd h2 (by omega)
    · intro i h1 h2
      exact absurd h2 (by omega)
  | succ f ih =>
    intro lo hi hfuel hlohi hhi
    by_cases hlh : lo < hi
    · have hmlt : (lo + hi) / 2 < hi := by omega
      have hmge : lo ≤ (lo + hi) / 2 := by omega
      by_cases hc : a.getD ((lo + hi) / 2) 0 < x
      · rw [bisectLeftGo_eq_of_lt a x lo hi hlh hc]
        obtain ⟨r1, r2, r3, r4⟩ := ih ((lo + hi) / 2 + 1) hi (by omega) (by omega) hhi
        refine ⟨by omega, r2, ?_, r4⟩
        intro i h1 h2
        by_cases hhigh : (lo + hi) / 2 + 1 ≤ i
        · exact r3 i hhigh h2
        · have hle : i ≤ (lo + hi) / 2 := by omega
          have hmlen : (lo + hi) / 2 < a.length := by omega
          exact lt_of_le_of_lt (pairwise_le_getD a hs i _ hle hmlen) hc
      · rw [bisectLeftGo_eq_of_ge a x lo hi hlh hc]
        obtain ⟨r1, r2, r3, r4⟩ := ih lo ((lo + hi) / 2) (by omega) (by omega) (by omega)
        refine ⟨r1, by omega, r3, ?_⟩
        intro i h1 h2
        by_cases hlow : i < (lo + hi) / 2
        · exact r4 i h1 hlow
        · have hge : (lo + hi) / 2 ≤ i := by omega
          have hilen : i < a.length := by omega
          have hmono := pairwise_le_getD a hs _ i hge hilen
          have hxm : x ≤ a.getD ((lo + hi) / 2) 0 := le_of_not_lt hc
          omega
    · rw [bisectLeftGo_eq_of_stop a x lo hi hlh]
      refine ⟨le_refl lo, by omega, ?_, ?_⟩
      · intro i h1 h2
        exact absurd h2 (by omega)
      · intro i h1 h2
        exact absurd h2 (by omega)

theorem bisect_left_spec (a : List Int) (x : Int)
    (hs : a.Pairwise (fun p q => p ≤ q)) :
    bisect_left a x ≤ a.length ∧
    (∀ i, i < bisect_left a x → a.getD i 0 < x) ∧
    (∀ i, bisect_left a x ≤ i → i < a.length → x ≤ a.getD i 0) := by
  obtain ⟨r1, r2, r3, r4⟩ :=
    bisectLeftGo_spec a x hs a.length 0 a.length (by omega) (by omega) (le_refl _)
  exact ⟨r2, fun i h2 => r3 i (by omega) h2, r4⟩

theorem fgs_getD (s : List Tileset) (i : Nat) (h : i < s.length) :
    (s.map (fun u => u.firstgid)).getD i 0 = (s.get ⟨i, h⟩).firstgid := by
  have hlen : i < (s.map (fun u => u.firstgid)).length := by simpa using h
  rw [List.getD_eq_get _ _ hlen]
  exact List.get_map _

theorem pyListGet_natCast {α : Type} (l : List α) (k : Nat) (h : k < l.length) :
    pyListGet l (k : Int) = .ok (l.get ⟨k, h⟩) := by
  have h0 : ¬((k : Int) < 0) := by omega
  have h1 : (0 : Int) ≤ (k : Int) ∧ (k : Int) < (l.length : Int) := by
    constructor <;> omega
  simp only [pyListGet, h0, if_false]
  rw [dif_pos h1]
  congr 1

theorem tileCollection_getitem_eval (s : List Tileset) (gid : Int) (hg : gid ≠ 0) :
    TileCollection.getitem ⟨s⟩ gid =
      (let idx := bisect_left (s.map (fun u => u.firstgid)) gid
       let idx2 : Int :=
         if idx = s.length ∨ (s.get? idx).map (fun u => u.firstgid) ≠ some gid then
           (idx : Int) - 1
         else (idx : Int)
       match pyListGet s idx2 with
       | .error err => .error err
       | .ok tileset => tileset.getitem (gid - tileset.firstgid)) := by
  simp only [TileCollection.getitem]
  rw [if_neg hg]

theorem tileset_getitem_spec (t : Tileset) (lid : Int)
    (htiles : ∀ tl ∈ t.tiles, tl.tilesetRef = some t.tsid)
    (h0 : 0 ≤ lid) (h1 : lid < t.tilecount) :
    ∃ tl, Tileset.getitem t lid = .ok tl ∧ tl.tilesetRef = some t.tsid ∧
      tl.id = lid := by
  have hc : ¬(lid < 0 ∨ t.tilecount ≤ lid) := by omega
  rw [Tileset.getitem, if_neg hc]
  cases hfind : t.tiledataGet lid with
  | none =>
    exact ⟨⟨some t.tsid, lid⟩, rfl, rfl, rfl⟩
  | some tl =>
    refine ⟨tl, rfl, ?_, ?_⟩
    · have hmem : tl ∈ t.tiles.reverse := List.mem_of_find?_eq_some hfind
      exact htiles tl (List.mem_reverse.mp hmem)
    · have hbeq := List.find?_some hfind
      simpa using hbeq

theorem getitem_of_sorted (s : List Tileset) (t : Tileset) (g : Int) (k : Nat)
    (hk : k < s.length) (hget : s.get ⟨k, hk⟩ = t)
    (hsorted : s.Pairwise tsLE)
    (hchain : s.Pairwise (fun a b => a.firstgid + a.tilecount ≤ b.firstgid))
    (hcount_s : ∀ u ∈ s, 1 ≤ u.tilecount)
    (hg0 : g ≠ 0) (hg1 : t.firstgid ≤ g) (hg2 : g < t.firstgid + t.tilecount) :
    TileCollection.getitem ⟨s⟩ g = Tileset.getitem t (g - t.firstgid) := by
  have hfgs_sorted : (s.map (fun u => u.firstgid)).Pairwise (fun p q => p ≤ q) :=
    List.Pairwise.map _ (fun a b h => h) hsorted
  have hlen_fgs : (s.map (fun u => u.firstgid)).length = s.length :=
    List.length_map _ _
  obtain ⟨hb1, hb2, hb3⟩ := bisect_left_spec (s.map (fun u => u.firstgid)) g hfgs_sorted
  have hchain_get := List.pairwise_iff_get.mp hchain
  have hbelow : ∀ i, (hi : i < k) → (s.get ⟨i, by omega⟩).firstgid < g := by
    intro i hi
    have hcg := hchain_get ⟨i, by omega⟩ ⟨k, hk⟩ hi
    have hicnt := hcount_s (s.get ⟨i, by omega⟩) (List.get_mem s i (by omega))
    rw [hget] at hcg
    omega
  have habove : ∀ j, (hj : j < s.length) → k < j → g < (s.get ⟨j, hj⟩).firstgid := by
    intro j hj hkj
    have hcg := hchain_get ⟨k, hk⟩ ⟨j, hj⟩ hkj
    have hkcnt := hcount_s (s.get ⟨k, hk⟩) (List.get_mem s k hk)
    rw [hget] at hcg
    omega
  rcases eq_or_lt_of_le hg1 with heq | hlt
  · -- g is exactly t.firstgid: bisect lands on k and no decrement happens
    have hrk : bisect_left (s.map (fun u => u.firstgid)) g = k := by
      by_contra hne
      rcases Nat.lt_or_ge (bisect_left (s.map (fun u => u.firstgid)) g) k with hlt2 | hge2
      · have h1 := hb3 (bisect_left (s.map (fun u => u.firstgid)) g) (le_refl _)
          (by omega)
        rw [fgs_getD s _ (by omega)] at h1
        have h2 := hbelow (bisect_left (s.map (fun u => u.firstgid)) g) hlt2
        omega
      · have hlt3 : k < bisect_left (s.map (fun u => u.firstgid)) g := by omega
        have h1 := hb2 k hlt3
        rw [fgs_getD s k hk, hget] at h1
        omega
    have hcond : ¬(k = s.length ∨
        (s.get? k).map (fun u => u.firstgid) ≠ some g) := by
      push_neg
      refine ⟨by omega, ?_⟩
      rw [List.get?_eq_get hk, Option.map_some', hget, heq]
    rw [tileCollection_getitem_eval s g hg0]
    simp only [hrk]
    rw [if_neg hcond]
    rw [pyListGet_natCast s k hk, hget]
  · -- t.firstgid < g: bisect lands on k+1 and the decrement brings it back to k
    have hrk : bisect_left (s.map (fun u => u.firstgid)) g = k + 1 := by
      by_contra hne
      rcases Nat.lt_or_ge (bisect_left (s.map (fun u => u.firstgid)) g) (k + 1)
        with hlt2 | hge2
      · have hle2 : bisect_left (s.map (fun u => u.firstgid)) g ≤ k := by omega
        have h1 := hb3 k hle2 (by omega)
        rw [fgs_getD s k hk, hget] at h1
        omega
      · have hlt3 : k + 1 < bisect_left (s.map (fun u => u.firstgid)) g := by omega
        have hk1len : k + 1 < s.length := by omega
        have h1 := hb2 (k + 1) hlt3
        rw [fgs_getD s (k + 1) hk1len] at h1
        have h2 := habove (k + 1) hk1len (by omega)
        omega
    have hcond : k + 1 = s.length ∨
        (s.get? (k + 1)).map (fun u => u.firstgid) ≠ some g := by
      by_cases heq2 : k + 1 = s.length
      · exact Or.inl heq2
      · have hlt2 : k + 1 < s.length := by omega
        refine Or.inr ?_
        rw [List.get?_eq_get hlt2, Option.map_some']
        have h2 := habove (k + 1) hlt2 (by omega)
        simp only [ne_eq, Option.some.injEq]
        omega
    rw [tileCollection_getitem_eval s g hg0]
    simp only [hrk]
    rw [if_pos hcond]
    have hcast : ((k + 1 : Nat) : Int) - 1 = (k : Int) := by omega
    rw [hcast, pyListGet_natCast s k hk, hget]

/-- C1: for a `TileCollection` built from a map's tilesets in any declaration
order (a consistent map: `firstgid ≥ 1`, `tilecount ≥ 1`, pairwise disjoint
GID ranges, and each tileset's `_tiles` children owned by that tileset),
`tiles[0]` returns the sentinel tile with no owning tileset and local id `0`,
and for every tileset `t` and every `g` with
`t.firstgid ≤ g < t.firstgid + t.tilecount`, `tiles[g]` returns a tile owned
by `t` whose local id is `g - t.firstgid`: construction sorts ascending by
`firstgid` and lookup binary-searches for the rightmost tileset with
`firstgid ≤ g`. -/
theorem tileCollection_gid_lookup (tilesets : List Tileset) (t : Tileset) (g : Int)
    (hmem : t ∈ tilesets)
    (hpos : ∀ u ∈ tilesets, 1 ≤ u.firstgid)
    (hcount : ∀ u ∈ tilesets, 1 ≤ u.tilecount)
    (hdisj : tilesets.Pairwise (fun a b =>
      a.firstgid + a.tilecount ≤ b.firstgid ∨ b.firstgid + b.tilecount ≤ a.firstgid))
    (htiles : ∀ tl ∈ t.tiles, tl.tilesetRef = some t.tsid)
    (hg1 : t.firstgid ≤ g) (hg2 : g < t.firstgid + t.tilecount) :
    (TileCollection.init tilesets).getitem 0 = .ok ⟨none, 0⟩ ∧
    ∃ tl, (TileCollection.init tilesets).getitem g = .ok tl ∧
      tl.tilesetRef = some t.tsid ∧ tl.id = g - t.firstgid := by
  have hperm : (List.insertionSort tsLE tilesets).Perm tilesets :=
    List.perm_insertionSort tsLE tilesets
  have hsorted : List.Pairwise tsLE (List.insertionSort tsLE tilesets) :=
    List.sorted_insertionSort tsLE tilesets
  have hdisj_s : (List.insertionSort tsLE tilesets).Pairwise (fun a b =>
      a.firstgid + a.tilecount ≤ b.firstgid ∨
      b.firstgid + b.tilecount ≤ a.firstgid) :=
    (hperm.pairwise_iff (fun h => h.symm)).mpr hdisj
  have hcount_s : ∀ u ∈ List.insertionSort tsLE tilesets, 1 ≤ u.tilecount :=
    fun u hu => hcount u (hperm.subset hu)
  have hchain : (List.insertionSort tsLE tilesets).Pairwise
      (fun a b => a.firstgid + a.tilecount ≤ b.firstgid) := by
    refine List.Pairwise.imp_of_mem ?_ (hsorted.and hdisj_s)
    intro a b ha hb hr
    have hbc := hcount_s b hb
    have hle : a.firstgid ≤ b.firstgid := hr.1
    rcases hr.2 with hcase | hcase
    · exact hcase
    · omega
  have hmem_s : t ∈ List.insertionSort tsLE tilesets := hperm.mem_iff.mpr hmem
  obtain ⟨⟨k, hk⟩, hget⟩ := List.get_of_mem hmem_s
  have hg0 : g ≠ 0 := by
    have := hpos t hmem
    omega
  have hinit : TileCollection.init tilesets = ⟨List.insertionSort tsLE tilesets⟩ :=
    rfl
  constructor
  · rw [hinit]
    simp [TileCollection.getitem]
  · rw [hinit, getitem_of_sorted (List.insertionSort tsLE tilesets) t g k hk hget
      hsorted hchain hcount_s hg0 hg1 hg2]
    exact tileset_getitem_spec t (g - t.firstgid) htiles (by omega) (by omega)

/-- Witness for C1: two tilesets declared out of order (`firstgid` 5 before
`firstgid` 1); GID 3 falls in the second tileset's range and resolves through
its `tiledata` to the tile with local id `2`. -/
theorem tileCollection_gid_lookup_witness :
    (TileCollection.init [⟨2, 5, 3, []⟩, ⟨1, 1, 4, [⟨some 1, 2⟩]⟩]).getitem 0 =
      .ok ⟨none, 0⟩ ∧
    ∃ tl, (TileCollection.init [⟨2, 5, 3, []⟩, ⟨1, 1, 4, [⟨some 1, 2⟩]⟩]).getitem 3 =
      .ok tl ∧ tl.tilesetRef = some 1 ∧
      tl.id = 3 - (⟨1, 1, 4, [⟨some 1, 2⟩]⟩ : Tileset).firstgid :=
  tileCollection_gid_lookup [⟨2, 5, 3, []⟩, ⟨1, 1, 4, [⟨some 1, 2⟩]⟩]
    ⟨1, 1, 4, [⟨some 1, 2⟩]⟩ 3 (by decide) (by decide) (by decide) (by decide)
    (by decide) (by decide) (by decide)
